import Mathlib

/-!
Verification development for the `error-object-from-payload` extraction
engine (`src/src/index.ts`: the `from` entry point, `checkInputForInitialObject`,
`processErrorObjectResult`, `buildSummariesFromObject`, `buildSummaryFromObject`,
`findNestedValueForPath`, `__processAllValuesFromPaths`, `addPrefixPathVariants`
and `DEFAULT_BUILD_OPTIONS`).

The JavaScript value universe is embedded shallowly: `JsValue` covers the
runtime values the engine inspects (undefined, null, booleans, numbers,
strings, arrays, plain objects).  JavaScript numbers are modelled by
`JsNumber`: a finite rational, NaN, or one of the two infinities; the engine
only ever asks `typeof`, `isNaN` and truthiness of numbers, so double
rounding is irrelevant.  Objects are association lists without duplicate
keys (the engine never creates duplicates).  Configuration is modelled by a
typed record mirroring `ErrorObjectBuildOptions`; option fields are `Option`s
whose `none` means the key is absent from the options object, so the
`'key' in options` tests of the source are `Option.isSome` here.  The
config-shape sentinels of the source that report a *type-malformed* option
value (for example `pathToCodeIsNotAnArray`, `pathToErrorsValuesAreNotStrings`,
`transformIsNotAFunction`) guard against untyped JavaScript callers and are
unreachable in this typed model; the *absence* sentinels
(`pathToCodeIsInvalid`, ...) are modelled faithfully.
-/

/-- A JavaScript number: a finite rational, NaN, or an infinity. -/
inductive JsNumber where
  | finite (q : ℚ)
  | nan
  | posInf
  | negInf
deriving DecidableEq

/-- `true` exactly on NaN, as JavaScript `isNaN` on a number argument. -/
def JsNumber.isNaNB : JsNumber → Bool
  | .nan => true
  | _ => false

/-- `Number.isFinite` semantics: `true` only on finite values. -/
def JsNumber.isFiniteB : JsNumber → Bool
  | .finite _ => true
  | _ => false

/-- JavaScript truthiness of a number: `0` and NaN are falsy. -/
def JsNumber.truthy : JsNumber → Bool
  | .finite q => decide (q ≠ 0)
  | .nan => false
  | _ => true

/-- Rendering used by `Number.prototype.toString` in the default transform.
Integer values render exactly; the decimal rendering of non-integer numbers
is approximated (the engine never inspects the rendered text). -/
def JsNumber.toDisplay : JsNumber → String
  | .finite q => if q.den = 1 then toString q.num else toString q.num ++ "." ++ toString q.den
  | .nan => "NaN"
  | .posInf => "Infinity"
  | .negInf => "-Infinity"

/-- Rendering used by `JSON.stringify`: NaN and the infinities render as
`null`, as in JavaScript. -/
def JsNumber.toJsonText : JsNumber → String
  | .finite q => if q.den = 1 then toString q.num else toString q.num ++ "." ++ toString q.den
  | _ => "null"

/-- A JavaScript runtime value, as far as the engine observes it. -/
inductive JsValue where
  | undefined
  | null
  | bool (b : Bool)
  | num (n : JsNumber)
  | str (s : String)
  | arr (elems : List JsValue)
  | obj (fields : List (String × JsValue))

/-- `value === undefined`. -/
def JsValue.isUndefined : JsValue → Bool
  | .undefined => true
  | _ => false

/-- `value === null`. -/
def JsValue.isNull : JsValue → Bool
  | .null => true
  | _ => false

/-- `typeof value === 'string'`. -/
def JsValue.isStr : JsValue → Bool
  | .str _ => true
  | _ => false

/-- `typeof value === 'number'`. -/
def JsValue.isNum : JsValue → Bool
  | .num _ => true
  | _ => false

/-- `Array.isArray(value)`. -/
def JsValue.isArr : JsValue → Bool
  | .arr _ => true
  | _ => false

/-- `typeof value`, as a string. Note `typeof null === 'object'`. -/
def JsValue.typeofStr : JsValue → String
  | .undefined => "undefined"
  | .null => "object"
  | .bool _ => "boolean"
  | .num _ => "number"
  | .str _ => "string"
  | .arr _ => "object"
  | .obj _ => "object"

/-- JavaScript truthiness. -/
def JsValue.truthy : JsValue → Bool
  | .undefined => false
  | .null => false
  | .bool b => b
  | .num n => n.truthy
  | .str s => decide (s ≠ "")
  | .arr _ => true
  | .obj _ => true

/-- `isNaN(value)` for the case the engine reaches it (value already known
to be a number). -/
def JsValue.isNaNV : JsValue → Bool
  | .num n => n.isNaNB
  | _ => false

/-- Property lookup on an object's field list; `undefined` when missing. -/
def lookupField : List (String × JsValue) → String → JsValue
  | [], _ => .undefined
  | (k, v) :: fs, key => if k = key then v else lookupField fs key

/-- `Number(key)` restricted to the canonical nonnegative-integer strings the
reducer of `findNestedValueForPath` can observably use as an index (digit-only
keys, including ones with leading zeros, which JavaScript canonicalizes:
`Number("01") = 1`). Other keys behave as plain property names. -/
def parseIndex (key : String) : Option Nat :=
  if key.length > 0 && key.data.all (fun c => c.isDigit) then
    some (key.data.foldl (fun acc c => acc * 10 + (c.toNat - 48)) 0)
  else none

/-- The property key actually used for object access: a key that parses as a
number is converted back to its canonical string by JavaScript member access. -/
def canonKey (key : String) : String :=
  match parseIndex key with
  | some n => toString n
  | none => key

/-- `obj[key]` on arbitrary values: objects look fields up, arrays index,
everything else yields `undefined` (property access on primitives that the
engine performs only behind a `typeof acc === 'object'` guard). -/
def JsValue.getField : JsValue → String → JsValue
  | .obj fs, key => lookupField fs (canonKey key)
  | .arr xs, key =>
      match parseIndex key with
      | some n => xs.getD n .undefined
      | none => .undefined
  | _, _ => .undefined

/-- One step of the reducer inside `findNestedValueForPath`:
empty segments are skipped, non-objects yield `undefined`. -/
def pathStep (acc : JsValue) (key : String) : JsValue :=
  if key.length = 0 then acc
  else
    match acc with
    | .obj fs => lookupField fs (canonKey key)
    | .arr xs =>
        match parseIndex key with
        | some n => xs.getD n .undefined
        | none => .undefined
    | _ => .undefined

/-- `String.prototype.replace(c, '')` with a single-character pattern:
removes only the FIRST occurrence. -/
def removeFirstCharAux : List Char → Char → List Char
  | [], _ => []
  | x :: xs, c => if x = c then xs else x :: removeFirstCharAux xs c

/-- Remove the first occurrence of a character from a string. -/
def removeFirstChar (s : String) (c : Char) : String :=
  ⟨removeFirstCharAux s.data c⟩

/-- `String.prototype.split('.')` semantics. -/
def splitOnDotAux : List Char → List Char → List String
  | [], acc => [⟨acc.reverse⟩]
  | c :: cs, acc => if c = '.' then (⟨acc.reverse⟩ : String) :: splitOnDotAux cs [] else splitOnDotAux cs (c :: acc)

/-- Split a string on `.` characters, keeping empty segments. -/
def splitOnDot (s : String) : List String := splitOnDotAux s.data []

/-- Embedding of `findNestedValueForPath` (src/src/index.ts): falsy path or
falsy value give `undefined`; the first occurrence of each bracket character
is removed; the dot-separated segments are folded with `pathStep`. -/
def findNestedValueForPath (value : JsValue) (path : String) : JsValue :=
  if path = "" || !value.truthy then .undefined
  else
    let normalizedPath := removeFirstChar (removeFirstChar path '[') ']'
    if normalizedPath = "" then .undefined
    else (splitOnDot normalizedPath).foldl pathStep value

/-- The closed set of failure sentinels (`ErrorObjectErrorResult` in
src/src/index.ts). -/
inductive ErrorResult where
  | isNullish
  | isNotAnObject
  | checkIsNullish
  | checkIsNotAnObject
  | isNotAnArray
  | checkInputObjectForValuesIsNotAnObject
  | checkInputObjectForValuesFailed
  | checkInputObjectForTypesIsNotAnObject
  | checkInputObjectForTypesFailed
  | checkInputObjectForTypesValueIsArrayFailed
  | checkInputObjectForKeysIsNotAnObject
  | checkInputObjectForKeysFailed
  | pathToErrorsIsNotAnArray
  | pathToErrorsValuesAreNotStrings
  | pathToCodeIsInvalid
  | pathToCodeIsNotAnArray
  | pathToCodeValuesAreNotStrings
  | pathToNumberCodeIsInvalid
  | pathToNumberCodeIsNotAnArray
  | pathToNumberCodeValuesAreNotStrings
  | pathToMessageIsInvalid
  | pathToMessageIsNotAnArray
  | pathToMessageValuesAreNotStrings
  | pathToDetailsIsInvalid
  | pathToDetailsIsNotAnArray
  | pathToDetailsValuesAreNotStrings
  | pathToDomainIsInvalid
  | pathToDomainIsNotAnArray
  | pathToDomainValuesAreNotStrings
  | transformIsNotAFunction
  | transformResultIsNotAValidObject
  | transformCodeResultIsNotString
  | transformNumberCodeResultIsNotNumber
  | transformNumberCodeResultIsNaN
  | transformMessageResultIsNotString
  | transformDetailsResultIsNotString
  | transformDomainResultIsNotString
  | buildSummaryIsNullish
  | buildSummaryIsNotAnObject
  | generalBuildSummariesFromObjectError
  | generalBuildSummaryFromObjectError
  | generalCheckInputObjectForValuesError
  | unknownCodeOrMessage
  | invalidSummary
deriving DecidableEq

/-- One `{path, beforeTransform, value}` triple of an `ErrorSummary`.  The
declared TypeScript element type is `string` (resp. `number`), but the
runtime `value` coming out of the transform validation can be any falsy
value, so it is kept as a raw `JsValue` (`undefined` when absent). -/
structure FieldEntry where
  path : Option String
  beforeTransform : JsValue
  value : JsValue

/-- The five per-field triples of an `ErrorSummary`. -/
structure SummaryValue where
  code : Option FieldEntry
  numberCode : Option FieldEntry
  message : Option FieldEntry
  details : Option FieldEntry
  domain : Option FieldEntry

/-- Embedding of `ErrorSummary` (src/src/index.ts). -/
structure ErrorSummary where
  didDetectErrorsArray : Option Bool
  input : JsValue
  path : Option String
  value : SummaryValue

/-- Embedding of `ErrorObjectProcessingError`: a failure sentinel paired with
the summary that produced it, if any. -/
structure ProcessingError where
  errorCode : ErrorResult
  summary : Option ErrorSummary

/-- `{path, value, exists}` rule of `checkInputObjectForValues`.  The
expected value is one of the primitive types the option declares.  The
source field `exists` is renamed `ruleExists` (keyword clash). -/
inductive JsPrim where
  | str (s : String)
  | num (n : JsNumber)
  | bool (b : Bool)
  | null
deriving DecidableEq

/-- JavaScript strict equality between a resolved value and a configured
primitive; note `NaN !== NaN`. -/
def jsStrictEqPrim : JsValue → JsPrim → Bool
  | .str a, .str b => a = b
  | .num (.finite a), .num (.finite b) => a = b
  | .num .posInf, .num .posInf => true
  | .num .negInf, .num .negInf => true
  | .bool a, .bool b => a = b
  | .null, .null => true
  | _, _ => false

/-- A `checkInputObjectForValues` rule. -/
structure ValueRule where
  value : JsPrim
  ruleExists : Bool

/-- A `checkInputObjectForTypes` rule (`type` is one of the `typeof` strings
the option declares; `valueIsArray` truthy only when `true`). -/
structure TypeRule where
  type : String
  valueIsArray : Bool
  ruleExists : Bool

/-- A `checkInputObjectForKeys` rule. -/
structure KeyRule where
  ruleExists : Bool

/-- The pre-transform field state handed to the transform hook
(`ErrorObjectTransformState`). -/
structure TransformState where
  code : Option String
  numberCode : Option JsNumber
  message : Option String
  details : Option String
  domain : Option String

/-- Embedding of `ErrorObjectBuildOptions`.  `none` on a field means the key
is absent from the options object.  Rule sets are association lists
(`Object.entries` order).  The transform hook receives the pre-transform
state and the raw candidate and may return any runtime value. -/
structure BuildOptions where
  checkInputObjectForValues : Option (List (String × ValueRule))
  checkInputObjectForTypes : Option (List (String × TypeRule))
  checkInputObjectForKeys : Option (List (String × KeyRule))
  pathToErrors : Option (List String)
  pathToCode : Option (List String)
  pathToNumberCode : Option (List String)
  pathToMessage : Option (List String)
  pathToDetails : Option (List String)
  pathToDomain : Option (List String)
  transform : Option (TransformState → JsValue → JsValue)

/-- JSON string quoting for `JSON.stringify` (escapes for the quote, the
backslash and newline; other control characters do not occur in the
developments below). -/
def jsonQuoteChar (c : Char) : String :=
  if c = '"' then "\\\""
  else if c = '\\' then "\\\\"
  else if c = '\n' then "\\n"
  else String.singleton c

/-- Quote a string as a JSON string literal. -/
def jsonQuote (s : String) : String :=
  "\"" ++ String.join (s.data.map jsonQuoteChar) ++ "\""

mutual
/-- `JSON.stringify`: `none` for `undefined` (the engine only calls it on
arrays and objects, where it always yields a string). -/
def stringifyVal : JsValue → Option String
  | .undefined => none
  | .null => some "null"
  | .bool b => some (cond b "true" "false")
  | .num n => some n.toJsonText
  | .str s => some (jsonQuote s)
  | .arr xs => some ("[" ++ String.intercalate "," (stringifyList xs) ++ "]")
  | .obj fs => some ("\x7b" ++ String.intercalate "," (stringifyFields fs) ++ "\x7d")

/-- Render array elements; `undefined` elements render as `null`. -/
def stringifyList : List JsValue → List String
  | [] => []
  | x :: xs => ((stringifyVal x).getD "null") :: stringifyList xs

/-- Render object fields; `undefined`-valued keys are dropped. -/
def stringifyFields : List (String × JsValue) → List String
  | [] => []
  | (k, v) :: fs =>
      match stringifyVal v with
      | some s => (jsonQuote k ++ ":" ++ s) :: stringifyFields fs
      | none => stringifyFields fs
end

/-- The value a string-field search loop of `__processAllValuesFromPaths`
keeps for a resolved value: a string is kept as-is, an array or object is
JSON-serialized; `undefined`, `null`, numbers and booleans are skipped. -/
def stringishValue (v : JsValue) : Option String :=
  match v with
  | .str s => some s
  | .arr xs => some (((stringifyVal (.arr xs))).getD "")
  | .obj fs => some (((stringifyVal (.obj fs))).getD "")
  | _ => none

/-- One string-field search loop of `__processAllValuesFromPaths`
(src/src/valuesFromPaths.ts): walk the path list in order and take the first
path whose resolved value is a string (kept as-is) or an array/object
(JSON-serialized); any other resolved value — including non-null numbers and
booleans — does not stop the search. -/
def pickStringField (objectToParse : JsValue) : List String → Option (String × String)
  | [] => none
  | p :: ps =>
      match stringishValue (findNestedValueForPath objectToParse p) with
      | some s => some (p, s)
      | none => pickStringField objectToParse ps

/-- The `numberCode` search loop: first path whose resolved value is a
non-NaN number (the source only excludes NaN, so infinities are accepted). -/
def pickNumberField (objectToParse : JsValue) : List String → Option (String × JsNumber)
  | [] => none
  | p :: ps =>
      match findNestedValueForPath objectToParse p with
      | .num n => if n.isNaNB then pickNumberField objectToParse ps else some (p, n)
      | _ => pickNumberField objectToParse ps

/-- The ten values `__processAllValuesFromPaths` returns on success. -/
structure ValuesResult where
  codeBeforeTransform : Option String
  codePath : Option String
  numberCodeBeforeTransform : Option JsNumber
  numberCodePath : Option String
  messageBeforeTransform : Option String
  messagePath : Option String
  detailsBeforeTransform : Option String
  detailsPath : Option String
  domainBeforeTransform : Option String
  domainPath : Option String

/-- Embedding of `__processAllValuesFromPaths` (src/src/valuesFromPaths.ts):
each of the five `pathTo*` options must be present (else the corresponding
`...IsInvalid` sentinel, checked in source order); each present list is
searched by `pickStringField` / `pickNumberField`. -/
def __processAllValuesFromPaths (objectToParse : JsValue) (options : BuildOptions) :
    Except ErrorResult ValuesResult :=
  match options.pathToCode with
  | none => .error .pathToCodeIsInvalid
  | some pathToCode =>
    let c := pickStringField objectToParse pathToCode
    match options.pathToNumberCode with
    | none => .error .pathToNumberCodeIsInvalid
    | some pathToNumberCode =>
      let n := pickNumberField objectToParse pathToNumberCode
      match options.pathToMessage with
      | none => .error .pathToMessageIsInvalid
      | some pathToMessage =>
        let m := pickStringField objectToParse pathToMessage
        match options.pathToDetails with
        | none => .error .pathToDetailsIsInvalid
        | some pathToDetails =>
          let d := pickStringField objectToParse pathToDetails
          match options.pathToDomain with
          | none => .error .pathToDomainIsInvalid
          | some pathToDomain =>
            let dm := pickStringField objectToParse pathToDomain
            .ok {
              codeBeforeTransform := c.map Prod.snd
              codePath := c.map Prod.fst
              numberCodeBeforeTransform := n.map Prod.snd
              numberCodePath := n.map Prod.fst
              messageBeforeTransform := m.map Prod.snd
              messagePath := m.map Prod.fst
              detailsBeforeTransform := d.map Prod.snd
              detailsPath := d.map Prod.fst
              domainBeforeTransform := dm.map Prod.snd
              domainPath := dm.map Prod.fst }

/-- Skip JSON whitespace. -/
def jsonSkipWs : List Char → List Char
  | c :: cs => if c = ' ' || c = '\n' || c = '\t' || c = '\r' then jsonSkipWs cs else c :: cs
  | [] => []

/-- Parse the digit run of a JSON number. -/
def jsonDigits : List Char → (List Char × List Char)
  | c :: cs =>
      if c.isDigit then
        let (ds, rest) := jsonDigits cs
        (c :: ds, rest)
      else ([], c :: cs)
  | [] => ([], [])

/-- Digits to a natural number. -/
def digitsToNat (ds : List Char) : Nat :=
  ds.foldl (fun acc c => acc * 10 + (c.toNat - 48)) 0

mutual
/-- Fueled recursive-descent `JSON.parse` for a value (fuel bounds the
nesting depth; callers supply the input length, which always suffices).
String escapes are handled for the quote, backslash and `n`; other JSON
escapes do not occur in the developments below. -/
def jsonParseVal (fuel : Nat) (cs : List Char) : Option (JsValue × List Char) :=
  match fuel with
  | 0 => none
  | fuel + 1 =>
    match jsonSkipWs cs with
    | [] => none
    | c :: rest =>
      if c = 'n' then
        match rest with
        | 'u' :: 'l' :: 'l' :: r => some (.null, r)
        | _ => none
      else if c = 't' then
        match rest with
        | 'r' :: 'u' :: 'e' :: r => some (.bool true, r)
        | _ => none
      else if c = 'f' then
        match rest with
        | 'a' :: 'l' :: 's' :: 'e' :: r => some (.bool false, r)
        | _ => none
      else if c = '"' then
        match jsonParseString rest with
        | some (s, r) => some (.str s, r)
        | none => none
      else if c = '[' then
        match jsonSkipWs rest with
        | ']' :: r => some (.arr [], r)
        | r => match jsonParseElems fuel r with
               | some (xs, r') => some (.arr xs, r')
               | none => none
      else if c = '\x7b' then
        match jsonSkipWs rest with
        | '\x7d' :: r => some (.obj [], r)
        | r => match jsonParseMembers fuel r with
               | some (fs, r') => some (.obj fs, r')
               | none => none
      else if c.isDigit || c = '-' then
        let (sign, cs') : (Int × List Char) := if c = '-' then (-1, rest) else (1, c :: rest)
        match cs' with
        | d :: ds =>
          if d.isDigit then
            let (intDs, afterInt) := jsonDigits (d :: ds)
            let intPart : Nat := digitsToNat intDs
            match afterInt with
            | '.' :: fs =>
              let (fracDs, afterFrac) := jsonDigits fs
              if fracDs.length = 0 then none
              else
                let q : ℚ := (intPart : ℚ) + (digitsToNat fracDs : ℚ) / ((10 : ℚ) ^ fracDs.length)
                some (.num (.finite (sign * q)), afterFrac)
            | r => some (.num (.finite (sign * intPart)), r)
          else none
        | [] => none
      else none

/-- Parse a JSON string body after the opening quote. -/
def jsonParseString : List Char → Option (String × List Char)
  | [] => none
  | c :: cs =>
    if c = '"' then some ("", cs)
    else if c = '\\' then
      match cs with
      | e :: cs' =>
        let decoded : Option Char :=
          if e = '"' then some '"'
          else if e = '\\' then some '\\'
          else if e = 'n' then some '\n'
          else none
        match decoded with
        | some d =>
          match jsonParseString cs' with
          | some (s, r) => some (String.singleton d ++ s, r)
          | none => none
        | none => none
      | [] => none
    else
      match jsonParseString cs with
      | some (s, r) => some (String.singleton c ++ s, r)
      | none => none

/-- Parse one-or-more array elements, after any leading whitespace. -/
def jsonParseElems (fuel : Nat) (cs : List Char) : Option (List JsValue × List Char) :=
  match fuel with
  | 0 => none
  | fuel + 1 =>
    match jsonParseVal fuel cs with
    | none => none
    | some (v, r) =>
      match jsonSkipWs r with
      | ',' :: r' =>
        match jsonParseElems fuel r' with
        | some (vs, r'') => some (v :: vs, r'')
        | none => none
      | ']' :: r' => some ([v], r')
      | _ => none

/-- Parse one-or-more object members, after any leading whitespace. -/
def jsonParseMembers (fuel : Nat) (cs : List Char) : Option (List (String × JsValue) × List Char) :=
  match fuel with
  | 0 => none
  | fuel + 1 =>
    match jsonSkipWs cs with
    | '"' :: r =>
      match jsonParseString r with
      | none => none
      | some (k, r') =>
        match jsonSkipWs r' with
        | ':' :: r'' =>
          match jsonParseVal fuel r'' with
          | none => none
          | some (v, r3) =>
            match jsonSkipWs r3 with
            | ',' :: r4 =>
              match jsonParseMembers fuel r4 with
              | some (fs, r5) => some ((k, v) :: fs, r5)
              | none => none
            | '\x7d' :: r4 => some ([(k, v)], r4)
            | _ => none
        | _ => none
    | _ => none
end

/-- `JSON.parse`: succeeds only when the whole input is one JSON value. -/
def jsonParse (s : String) : Option JsValue :=
  match jsonParseVal (s.length + 1) s.data with
  | some (v, rest) => if jsonSkipWs rest = [] then some v else none
  | none => none

/-- The `objectToParse` computation at the top of `buildSummaryFromObject`:
a string candidate is JSON-decoded and the decode result used when it is a
non-null object; otherwise the candidate is used unchanged.

The source also contains `if (objectToParse === maybeObject) objectToParse =
\x7bcode: 'unknown', message: maybeObject\x7d`, but at that point
`objectToParse` is either still `undefined` (decode failed or produced a
non-object) or a freshly parsed object, while `maybeObject` is a string, so
the strict equality is false by `typeof` alone and the synthetic-object
assignment can never execute.  It is therefore omitted here. -/
def resolveCandidateObject (maybeObject : JsValue) : JsValue :=
  match maybeObject with
  | .str s =>
      match jsonParse s with
      | some j => if j.typeofStr = "object" && !j.isNull then j else .str s
      | none => .str s
  | v => v

/-- Convert a `ValuesResult` into the `beforeTransform` state object. -/
def stateOf (vr : ValuesResult) : TransformState :=
  { code := vr.codeBeforeTransform
    numberCode := vr.numberCodeBeforeTransform
    message := vr.messageBeforeTransform
    details := vr.detailsBeforeTransform
    domain := vr.domainBeforeTransform }

/-- An optional string as the JavaScript value it denotes. -/
def jsOfOptStr : Option String → JsValue
  | some s => .str s
  | none => .undefined

/-- An optional number as the JavaScript value it denotes. -/
def jsOfOptNum : Option JsNumber → JsValue
  | some n => .num n
  | none => .undefined

/-- The `beforeTransform` object literal handed to the transform hook, and
the `values` object when no transform is configured. -/
def stateToJs (s : TransformState) : JsValue :=
  .obj [("code", jsOfOptStr s.code), ("numberCode", jsOfOptNum s.numberCode),
        ("message", jsOfOptStr s.message), ("details", jsOfOptStr s.details),
        ("domain", jsOfOptStr s.domain)]

/-- The source's rejection test `values.f && typeof values.f !== 'string'`
for the four string fields: a TRUTHY non-string.  A falsy non-string (the
number 0, `false`, ...) does not trip it. -/
def truthyNonString (v : JsValue) : Bool := v.truthy && !v.isStr

/-- The source's `values.numberCode !== undefined && !== null && typeof !==
'number'` test. -/
def presentNonNumber (v : JsValue) : Bool := !v.isUndefined && !v.isNull && !v.isNum

/-- The source's `values.numberCode !== undefined && !== null &&
isNaN(values.numberCode)` test (NaN only; infinities pass). -/
def presentNaN (v : JsValue) : Bool := !v.isUndefined && !v.isNull && v.isNaNV

/-- The field-by-field validation of the transform output in
`buildSummaryFromObject`, in source order.  Note `code`, `message`,
`details` and `domain` are tested behind a truthiness guard, while
`numberCode` is tested for presence explicitly and for NaN only. -/
def validateTransformValues (values : JsValue) : Option ErrorResult :=
  if values.isUndefined || values.isNull || values.typeofStr != "object" then
    some .transformResultIsNotAValidObject
  else if truthyNonString (values.getField "code") then some .transformCodeResultIsNotString
  else if presentNonNumber (values.getField "numberCode") then
    some .transformNumberCodeResultIsNotNumber
  else if presentNaN (values.getField "numberCode") then some .transformNumberCodeResultIsNaN
  else if truthyNonString (values.getField "message") then some .transformMessageResultIsNotString
  else if truthyNonString (values.getField "details") then some .transformDetailsResultIsNotString
  else if truthyNonString (values.getField "domain") then some .transformDomainResultIsNotString
  else none

/-- JavaScript truthiness of an optional string (`undefined` and `''` falsy). -/
def optStrTruthy : Option String → Bool
  | some s => decide (s ≠ "")
  | none => false

/-- A value counts as present when it is neither `undefined` nor `null`. -/
def jsPresent (v : JsValue) : Bool := !v.isUndefined && !v.isNull

/-- The `ErrorSummary` literal returned by `buildSummaryFromObject` on
success: each field entry is created exactly when the winning path, the
pre-transform value or the post-transform value is truthy (for `numberCode`:
present), mirroring the source's `||` conditions. -/
def mkSummary (didDetectErrorsArray : Bool) (objectToParse : JsValue)
    (errorsPath : Option String) (vr : ValuesResult) (values : JsValue) : ErrorSummary :=
  { didDetectErrorsArray := if didDetectErrorsArray then some true else none
    input := objectToParse
    path := errorsPath
    value := {
      code :=
        if optStrTruthy vr.codePath || optStrTruthy vr.codeBeforeTransform
            || (values.getField "code").truthy then
          some ⟨vr.codePath, jsOfOptStr vr.codeBeforeTransform, values.getField "code"⟩
        else none
      numberCode :=
        if optStrTruthy vr.numberCodePath || vr.numberCodeBeforeTransform.isSome
            || jsPresent (values.getField "numberCode") then
          some ⟨vr.numberCodePath, jsOfOptNum vr.numberCodeBeforeTransform,
                values.getField "numberCode"⟩
        else none
      message :=
        if optStrTruthy vr.messagePath || optStrTruthy vr.messageBeforeTransform
            || (values.getField "message").truthy then
          some ⟨vr.messagePath, jsOfOptStr vr.messageBeforeTransform, values.getField "message"⟩
        else none
      details :=
        if optStrTruthy vr.detailsPath || optStrTruthy vr.detailsBeforeTransform
            || (values.getField "details").truthy then
          some ⟨vr.detailsPath, jsOfOptStr vr.detailsBeforeTransform, values.getField "details"⟩
        else none
      domain :=
        if optStrTruthy vr.domainPath || optStrTruthy vr.domainBeforeTransform
            || (values.getField "domain").truthy then
          some ⟨vr.domainPath, jsOfOptStr vr.domainBeforeTransform, values.getField "domain"⟩
        else none } }

/-- Embedding of `buildSummaryFromObject` (src/src/builder.ts): nullish
candidates fail, string candidates are JSON-decoded by
`resolveCandidateObject`, non-objects fail, then path extraction, the
transform hook (pass-through when absent) and the output validation run,
and a summary is assembled. -/
def buildSummaryFromObject (maybeObject : JsValue) (errorsPath : Option String)
    (didDetectErrorsArray : Bool) (options : BuildOptions) :
    Except ErrorResult ErrorSummary :=
  if maybeObject.isUndefined || maybeObject.isNull then .error .buildSummaryIsNullish
  else
    let objectToParse := resolveCandidateObject maybeObject
    if objectToParse.typeofStr != "object" then .error .buildSummaryIsNotAnObject
    else
      match __processAllValuesFromPaths objectToParse options with
      | .error e => .error e
      | .ok vr =>
        let beforeTransform := stateOf vr
        let values :=
          match options.transform with
          | some f => f beforeTransform objectToParse
          | none => stateToJs beforeTransform
        match validateTransformValues values with
        | some e => .error e
        | none => .ok (mkSummary didDetectErrorsArray objectToParse errorsPath vr values)

/-- The error-collection detection loop of `buildSummariesFromObject`: the
first path whose resolved value is an array (`found && Array.isArray(found)`;
an empty array is truthy, so emptiness is NOT required) stops the search. -/
def findErrorsArray (input : JsValue) : List String → Option (String × List JsValue)
  | [] => none
  | p :: ps =>
      match findNestedValueForPath input p with
      | .arr xs => some (p, xs)
      | _ => findErrorsArray input ps

/-- Embedding of `buildSummariesFromObject` (src/src/builder.ts): nullish or
non-object payloads yield a singleton sentinel; otherwise the collection is
detected (when `pathToErrors` is configured) and a summary is built per
candidate.  When the detected array is empty, `errors` falls back to the
payload itself while `errorsPath` and `didDetectErrorsArray` keep the values
set by the detection loop. -/
def buildSummariesFromObject (input : JsValue) (options : BuildOptions) :
    List (Except ErrorResult ErrorSummary) :=
  if input.isUndefined || input.isNull then [.error .isNullish]
  else if input.typeofStr != "object" then [.error .isNotAnObject]
  else
    match options.pathToErrors with
    | none => [buildSummaryFromObject input none false options]
    | some paths =>
      match findErrorsArray input paths with
      | some (errorsPath, found) =>
          let errors := if found.isEmpty then [input] else found
          errors.map (fun e => buildSummaryFromObject e (some errorsPath) true options)
      | none => [buildSummaryFromObject input none false options]

/-- The external `ErrorObject` record type of the `@smbcheeky/error-object`
package.  Modelled from the spec: the final error-record type is externally
supplied, exposing a constructor from `\x7bcode, message, numberCode?, details?,
domain?, raw?, processingErrors?\x7d` plus `setNextErrors`/`setRaw`-style
mutation and a fallback constructor; `fallbackTag` records whether the record
was produced by `ErrorObject.fallback()`.  `numberCode`, `details` and
`domain` are kept as raw runtime values (`undefined` when absent), since the
engine forwards whatever passed validation. -/
inductive ErrorObject where
  | mk (code : String) (message : String)
      (numberCode : JsValue) (details : JsValue) (domain : JsValue)
      (summary : Option ErrorSummary) (processingErrors : List ProcessingError)
      (nextErrors : Option (List ErrorObject)) (raw : Option JsValue)
      (fallbackTag : Bool)

/-- The record's `code`. -/
def ErrorObject.code : ErrorObject → String
  | .mk c _ _ _ _ _ _ _ _ _ => c

/-- The record's `message`. -/
def ErrorObject.message : ErrorObject → String
  | .mk _ m _ _ _ _ _ _ _ _ => m

/-- The record's `numberCode` value. -/
def ErrorObject.numberCode : ErrorObject → JsValue
  | .mk _ _ nc _ _ _ _ _ _ _ => nc

/-- The record's diagnostic summary. -/
def ErrorObject.summary : ErrorObject → Option ErrorSummary
  | .mk _ _ _ _ _ s _ _ _ _ => s

/-- The record's accumulated processing notes. -/
def ErrorObject.processingErrors : ErrorObject → List ProcessingError
  | .mk _ _ _ _ _ _ pe _ _ _ => pe

/-- The record's secondary-errors chain. -/
def ErrorObject.nextErrors : ErrorObject → Option (List ErrorObject)
  | .mk _ _ _ _ _ _ _ ne _ _ => ne

/-- The raw payload attached to the record. -/
def ErrorObject.raw : ErrorObject → Option JsValue
  | .mk _ _ _ _ _ _ _ _ r _ => r

/-- Whether the record is the diagnostic fallback (`isFallback()`). -/
def ErrorObject.isFallbackB : ErrorObject → Bool
  | .mk _ _ _ _ _ _ _ _ _ t => t

/-- `setNextErrors`, functionally. -/
def ErrorObject.setNextErrors : ErrorObject → Option (List ErrorObject) → ErrorObject
  | .mk c m nc dt dm su pe _ r t, ne => .mk c m nc dt dm su pe ne r t

/-- `setRaw`, functionally. -/
def ErrorObject.setRaw : ErrorObject → Option JsValue → ErrorObject
  | .mk c m nc dt dm su pe ne _ t, r => .mk c m nc dt dm su pe ne r t

/-- `setProcessingErrors`, functionally. -/
def ErrorObject.setProcessingErrors : ErrorObject → List ProcessingError → ErrorObject
  | .mk c m nc dt dm su _ ne r t, pe => .mk c m nc dt dm su pe ne r t

/-- Modelled from the spec: `ErrorObject.fallback()`, a diagnostics-only
record always constructible when no valid record exists (the generic code
and message texts live in the external package and are immaterial here). -/
def ErrorObject.fallback : ErrorObject :=
  .mk "unknown" "Something went wrong." .undefined .undefined .undefined none [] none none true

/-- The value of `summary.value.code?.value` in the aggregator: the entry's
value when the entry exists, `undefined` otherwise. -/
def entryValue : Option FieldEntry → JsValue
  | some e => e.value
  | none => .undefined

/-- The aggregator's validity test on one summary: the post-transform `code`
and `message` must both be present strings
(`code !== undefined && code !== null && typeof code === 'string'`, same for
`message`).  An empty string passes. -/
def summaryIsValid (s : ErrorSummary) : Bool :=
  let code := entryValue s.value.code
  let message := entryValue s.value.message
  !code.isUndefined && !code.isNull && code.isStr &&
    (!message.isUndefined && !message.isNull && message.isStr)

/-- The `filter` pass of `processErrorObjectResult`: split the summaries into
the valid ones (kept, in order) and one processing note per non-valid entry
(sentinels keep their code, non-valid summaries get `unknownCodeOrMessage`
and carry the summary), in traversal order. -/
def collectValid : List (Except ErrorResult ErrorSummary) →
    List ErrorSummary × List ProcessingError
  | [] => ([], [])
  | .error e :: rest =>
      let (vs, ns) := collectValid rest
      (vs, ⟨e, none⟩ :: ns)
  | .ok s :: rest =>
      let (vs, ns) := collectValid rest
      if summaryIsValid s then (s :: vs, ns) else (vs, ⟨.unknownCodeOrMessage, some s⟩ :: ns)

/-- The string a validated code/message value holds (the aggregator only
calls this after checking `typeof === 'string'`; the default is dead). -/
def strOfJs : JsValue → String
  | .str s => s
  | _ => ""

/-- The `new ErrorObject(\x7bcode, message, numberCode, details, domain, summary,
processingErrors\x7d)` construction in the aggregator's `map`; every record
receives the full note list accumulated by the filter pass. -/
def mkErrorObject (s : ErrorSummary) (processingErrors : List ProcessingError) : ErrorObject :=
  .mk (strOfJs (entryValue s.value.code)) (strOfJs (entryValue s.value.message))
      (entryValue s.value.numberCode) (entryValue s.value.details) (entryValue s.value.domain)
      (some s) processingErrors none none false

/-- The `\x7berror?, force\x7d` result of the engine. -/
structure FromResult where
  error : Option ErrorObject
  force : ErrorObject

/-- Embedding of `processErrorObjectResult` (src/src/index.ts): partition the
summaries, build one record per valid summary (the `map`'s re-check of code
and message repeats the filter's test verbatim, so it never yields `null`
and the trailing `instanceof` filter keeps everything), chain the rest onto
the first, attach the raw payload, and fall back when nothing was valid. -/
def processErrorObjectResult (summaries : List (Except ErrorResult ErrorSummary))
    (raw : JsValue) (fallbackError : ErrorObject) : FromResult :=
  let (valid, processingErrors) := collectValid summaries
  let validErrors := valid.map (fun s => mkErrorObject s processingErrors)
  match validErrors with
  | [] =>
      { error := none
        force :=
          if processingErrors.length > 0 then
            fallbackError.setProcessingErrors processingErrors
          else fallbackError }
  | firstError :: nextErrors =>
      let e := (firstError.setNextErrors
          (if nextErrors.length > 0 then some nextErrors else none)).setRaw (some raw)
      { error := some e, force := e }

/-- The `checkInputObjectForValues` loop: first failing rule wins. -/
def checkValueRulesList (input : JsValue) : List (String × ValueRule) → Option ErrorResult
  | [] => none
  | (key, rule) :: rest =>
      let foundValue := findNestedValueForPath input key
      if (if rule.ruleExists then !jsStrictEqPrim foundValue rule.value
          else jsStrictEqPrim foundValue rule.value) then
        some .checkInputObjectForValuesFailed
      else checkValueRulesList input rest

/-- The `checkInputObjectForTypes` loop: the array-ness test runs first when
`valueIsArray` is truthy, then the `typeof` test. -/
def checkTypeRulesList (input : JsValue) : List (String × TypeRule) → Option ErrorResult
  | [] => none
  | (key, rule) :: rest =>
      let foundValue := findNestedValueForPath input key
      if rule.valueIsArray &&
          (if rule.ruleExists then !foundValue.isArr else foundValue.isArr) then
        some .checkInputObjectForTypesValueIsArrayFailed
      else if (if rule.ruleExists then foundValue.typeofStr != rule.type
               else foundValue.typeofStr == rule.type) then
        some .checkInputObjectForTypesFailed
      else checkTypeRulesList input rest

/-- The `checkInputObjectForKeys` loop: truthiness of the resolved value must
match the rule. -/
def checkKeyRulesList (input : JsValue) : List (String × KeyRule) → Option ErrorResult
  | [] => none
  | (key, rule) :: rest =>
      let foundValue := findNestedValueForPath input key
      if (if rule.ruleExists then !foundValue.truthy else foundValue.truthy) then
        some .checkInputObjectForKeysFailed
      else checkKeyRulesList input rest

/-- Embedding of `checkInputForInitialObject` (src/src/index.ts): the payload
must be a non-null object, then the three configured rule sets run in order.
The source's surrounding `try/catch` silently swallows internal exceptions
(fail-open); the model is total, so that branch has no counterpart. -/
def checkInputForInitialObject (input : JsValue) (options : BuildOptions) :
    Option ErrorResult :=
  if input.isUndefined || input.isNull then some .checkIsNullish
  else if input.typeofStr != "object" then some .checkIsNotAnObject
  else
    match (match options.checkInputObjectForValues with
           | some rules => checkValueRulesList input rules
           | none => none) with
    | some e => some e
    | none =>
      match (match options.checkInputObjectForTypes with
             | some rules => checkTypeRulesList input rules
             | none => none) with
      | some e => some e
      | none =>
        match options.checkInputObjectForKeys with
        | some rules => checkKeyRulesList input rules
        | none => none

/-- Embedding of `addPrefixPathVariants` (src/src/utils.ts), string-prefix
form: the base list followed by each base path under `prefixArg + '.'`. -/
def addPrefixPathVariants (prefixArg : String) (array : List String) : List String :=
  array ++ array.map (fun s => prefixArg ++ "." ++ s)

/-- The default transform of `DEFAULT_BUILD_OPTIONS`: when no string code
was found, the number code (if present) is stringified into `code`. -/
def defaultTransform (beforeTransform : TransformState) (_inputObject : JsValue) : JsValue :=
  let newCode :=
    match beforeTransform.code with
    | some c => some c
    | none =>
      match beforeTransform.numberCode with
      | some n => some n.toDisplay
      | none => none
  stateToJs { beforeTransform with code := newCode }

/-- Embedding of `DEFAULT_BUILD_OPTIONS` (src/src/utils.ts). -/
def DEFAULT_BUILD_OPTIONS : BuildOptions :=
  { checkInputObjectForValues := none
    checkInputObjectForTypes := none
    checkInputObjectForKeys := none
    pathToErrors := some ["errors", "errs"]
    pathToCode := some (addPrefixPathVariants "error"
      ["code", "err_code", "errorCode", "error_code"])
    pathToNumberCode := some (addPrefixPathVariants "error"
      ["numberCode", "err_number_code", "errorNumberCode", "error_number_code"])
    pathToMessage := some (addPrefixPathVariants "error"
      ["message", "err_message", "errorMessage", "error_message"])
    pathToDetails := some (addPrefixPathVariants "error"
      ["details", "err_details", "errorDetails", "error_details"])
    pathToDomain := some (addPrefixPathVariants "error"
      ["domain", "errorDomain", "error_domain", "err_domain", "type"])
    transform := some defaultTransform }

/-- Merge one optional field of a partial options object over the default. -/
def mergeField {α : Type} (over base : Option α) : Option α :=
  match over with
  | some v => some v
  | none => base

/-- The `\x7b...DEFAULT_BUILD_OPTIONS, ...withOptions\x7d` spread in `from`. -/
def mergeOptions (base : BuildOptions) (withOptions : Option BuildOptions) : BuildOptions :=
  match withOptions with
  | none => base
  | some o =>
    { checkInputObjectForValues :=
        mergeField o.checkInputObjectForValues base.checkInputObjectForValues
      checkInputObjectForTypes := mergeField o.checkInputObjectForTypes base.checkInputObjectForTypes
      checkInputObjectForKeys := mergeField o.checkInputObjectForKeys base.checkInputObjectForKeys
      pathToErrors := mergeField o.pathToErrors base.pathToErrors
      pathToCode := mergeField o.pathToCode base.pathToCode
      pathToNumberCode := mergeField o.pathToNumberCode base.pathToNumberCode
      pathToMessage := mergeField o.pathToMessage base.pathToMessage
      pathToDetails := mergeField o.pathToDetails base.pathToDetails
      pathToDomain := mergeField o.pathToDomain base.pathToDomain
      transform := mergeField o.transform base.transform }

/-- Embedding of the public entry point `from` (exported as `fromPayload`;
src/src/index.ts): merge the options over the defaults, run the pre-flight
checks, build the summaries (through collection detection, since the merged
options always carry `pathToErrors`), and aggregate. -/
def fromPayload (value : JsValue) (withOptions : Option BuildOptions) : FromResult :=
  let options := mergeOptions DEFAULT_BUILD_OPTIONS withOptions
  let fallbackError := ErrorObject.fallback.setRaw (some value)
  match checkInputForInitialObject value options with
  | some checksFailed =>
      { error := none
        force := fallbackError.setProcessingErrors [⟨checksFailed, none⟩] }
  | none =>
      let summaries :=
        if options.pathToErrors.isSome then buildSummariesFromObject value options
        else [buildSummaryFromObject value none false options]
      processErrorObjectResult summaries value fallbackError

/-- A minimal well-formed options object used by the concrete examples below:
all five field path lists present, no rule sets, no transform. -/
def plainBuildOptions : BuildOptions :=
  { checkInputObjectForValues := none
    checkInputObjectForTypes := none
    checkInputObjectForKeys := none
    pathToErrors := none
    pathToCode := some []
    pathToNumberCode := some []
    pathToMessage := some []
    pathToDetails := some []
    pathToDomain := some []
    transform := none }

/-- Candidate `\x7bcode: "C1", message: "m1"\x7d`. -/
def cand1 : JsValue := .obj [("code", .str "C1"), ("message", .str "m1")]

/-- Candidate `\x7bcode: "C2", message: "m2"\x7d`. -/
def cand2 : JsValue := .obj [("code", .str "C2"), ("message", .str "m2")]

/-- Scenario-B payload `\x7berrors: [cand1, cand2]\x7d`. -/
def scenarioBPayload : JsValue := .obj [("errors", .arr [cand1, cand2])]

/-- Options for the Scenario-B example: collection at `errors`, code at
`code`, message at `message`. -/
def scenarioBOpts : BuildOptions :=
  { plainBuildOptions with
      pathToErrors := some ["errors"]
      pathToCode := some ["code"]
      pathToMessage := some ["message"] }

/-- The summary the engine builds for `cand1` in Scenario B. -/
def scenarioBSummary1 : ErrorSummary :=
  { didDetectErrorsArray := some true
    input := cand1
    path := some "errors"
    value :=
      { code := some ⟨some "code", .str "C1", .str "C1"⟩
        numberCode := none
        message := some ⟨some "message", .str "m1", .str "m1"⟩
        details := none
        domain := none } }

/-- The summary the engine builds for `cand2` in Scenario B. -/
def scenarioBSummary2 : ErrorSummary :=
  { didDetectErrorsArray := some true
    input := cand2
    path := some "errors"
    value :=
      { code := some ⟨some "code", .str "C2", .str "C2"⟩
        numberCode := none
        message := some ⟨some "message", .str "m2", .str "m2"⟩
        details := none
        domain := none } }

/-- A summary whose post-transform code is the EMPTY string and whose
message is a non-empty string. -/
def emptyCodeSummary : ErrorSummary :=
  { didDetectErrorsArray := none
    input := .obj [("code", .str ""), ("message", .str "m")]
    path := none
    value :=
      { code := some ⟨some "code", .str "", .str ""⟩
        numberCode := none
        message := some ⟨some "message", .str "m", .str "m"⟩
        details := none
        domain := none } }

/-- Payload whose first collection path resolves to an EMPTY array while the
second resolves to a non-empty one. -/
def emptyFirstPayload : JsValue :=
  .obj [("a", .arr []), ("b", .arr [cand1])]

/-- Options trying collection paths `a` then `b`. -/
def emptyFirstOpts : BuildOptions :=
  { plainBuildOptions with
      pathToErrors := some ["a", "b"]
      pathToCode := some ["code"]
      pathToMessage := some ["message"] }

/-- Candidate with a numeric `code` and a string `errorCode`. -/
def numberCodeFirstObj : JsValue :=
  .obj [("code", .num (.finite 42)), ("errorCode", .str "X")]

/-- Options whose transform returns a falsy non-string `code` (the number 0). -/
def falsyCodeOpts : BuildOptions :=
  { plainBuildOptions with
      pathToCode := some ["code"]
      pathToMessage := some ["message"]
      transform := some (fun _ _ => .obj [("code", .num (.finite 0)), ("message", .str "mm")]) }

/-- The summary the engine builds for `cand1` under `falsyCodeOpts`: a
summary IS produced and its post-transform code value is the number 0. -/
def falsyCodeSummary : ErrorSummary :=
  { didDetectErrorsArray := none
    input := cand1
    path := none
    value :=
      { code := some ⟨some "code", .str "C1", .num (.finite 0)⟩
        numberCode := none
        message := some ⟨some "message", .str "m1", .str "mm"⟩
        details := none
        domain := none } }

/-- Options whose transform returns a TRUTHY non-string `code`. -/
def truthyBadCodeOpts : BuildOptions :=
  { plainBuildOptions with
      pathToCode := some ["code"]
      pathToMessage := some ["message"]
      transform := some (fun _ _ => .obj [("code", .bool true)]) }

/-- Payload carrying `numberCode: Infinity`. -/
def infinityPayload : JsValue := .obj [("numberCode", .num .posInf)]

/-- Options extracting `numberCode` from `numberCode`. -/
def infinityOpts : BuildOptions :=
  { plainBuildOptions with pathToNumberCode := some ["numberCode"] }

/-- The `ValuesResult` the engine produces on `infinityPayload`: the
pre-transform `numberCode` is `Infinity`. -/
def infinityVR : ValuesResult :=
  { codeBeforeTransform := none
    codePath := none
    numberCodeBeforeTransform := some .posInf
    numberCodePath := some "numberCode"
    messageBeforeTransform := none
    messagePath := none
    detailsBeforeTransform := none
    detailsPath := none
    domainBeforeTransform := none
    domainPath := none }

/-- Candidate with string code and message plus a finite `numberCode`. -/
def finiteNumObj : JsValue :=
  .obj [("code", .str "C"), ("message", .str "M"), ("numberCode", .num (.finite 7))]

/-- Options for `finiteNumObj`. -/
def finiteNumOpts : BuildOptions :=
  { plainBuildOptions with
      pathToCode := some ["code"]
      pathToMessage := some ["message"]
      pathToNumberCode := some ["numberCode"] }

/-- The summary the engine builds for `finiteNumObj`. -/
def finiteNumSummary : ErrorSummary :=
  { didDetectErrorsArray := none
    input := finiteNumObj
    path := none
    value :=
      { code := some ⟨some "code", .str "C", .str "C"⟩
        numberCode := some ⟨some "numberCode", .num (.finite 7), .num (.finite 7)⟩
        message := some ⟨some "message", .str "M", .str "M"⟩
        details := none
        domain := none } }

/-- Nested value `\x7ba: [\x7bb: "B"\x7d]\x7d` for the bracket-path example. -/
def bracketPathVal : JsValue := .obj [("a", .arr [.obj [("b", .str "B")]])]

/-- Projection of an extraction result to its summary, when successful. -/
def summaryOk : Except ErrorResult ErrorSummary → Option ErrorSummary
  | .ok s => some s
  | .error _ => none

theorem typeof_object_shape (v : JsValue) (h : v.typeofStr = "object") :
    v.isUndefined = false ∧ (v.isNull = true ∨ v.isArr = true ∨ ∃ fs, v = .obj fs) := by
  cases v <;> simp_all [JsValue.typeofStr, JsValue.isUndefined, JsValue.isNull, JsValue.isArr]

theorem checkInput_none_shape (input : JsValue) (options : BuildOptions)
    (h : checkInputForInitialObject input options = none) :
    input.isUndefined = false ∧ input.isNull = false ∧ input.typeofStr = "object" := by
  unfold checkInputForInitialObject at h
  by_cases h1 : (input.isUndefined || input.isNull) = true
  · rw [if_pos h1] at h; exact absurd h (by simp)
  · rw [if_neg h1] at h
    by_cases h2 : (input.typeofStr != "object") = true
    · rw [if_pos h2] at h; exact absurd h (by simp)
    · simp only [Bool.or_eq_true, not_or, Bool.not_eq_true] at h1
      simp only [bne_iff_ne, ne_eq, not_not, Decidable.not_not] at h2
      exact ⟨h1.1, h1.2, h2⟩

theorem isStr_iff (v : JsValue) : v.isStr = true ↔ ∃ s, v = .str s := by
  cases v <;> simp [JsValue.isStr]

theorem present_string_collapse (v : JsValue) :
    (!v.isUndefined && !v.isNull && v.isStr) = v.isStr := by
  cases v <;> rfl

theorem collectValid_fst (l : List (Except ErrorResult ErrorSummary)) :
    (collectValid l).1 = (l.filterMap summaryOk).filter summaryIsValid := by
  induction l with
  | nil => rfl
  | cons x rest ih =>
    cases x with
    | error e => simpa [collectValid, summaryOk] using ih
    | ok s =>
      by_cases hv : summaryIsValid s = true
      · simp [collectValid, summaryOk, hv, ih]
      · simp only [Bool.not_eq_true] at hv
        simp [collectValid, summaryOk, hv, ih]

theorem collectValid_length (l : List (Except ErrorResult ErrorSummary)) :
    (collectValid l).1.length + (collectValid l).2.length = l.length := by
  induction l with
  | nil => rfl
  | cons x rest ih =>
    cases x with
    | error e => simp [collectValid]; omega
    | ok s =>
      by_cases hv : summaryIsValid s = true
      · simp [collectValid, hv]; omega
      · simp only [Bool.not_eq_true] at hv
        simp [collectValid, hv]; omega

theorem collectValid_map_ok (ss : List ErrorSummary)
    (h : ∀ s ∈ ss, summaryIsValid s = true) :
    collectValid (ss.map Except.ok) = (ss, []) := by
  induction ss with
  | nil => rfl
  | cons s rest ih =>
    have hs : summaryIsValid s = true := h s (List.mem_cons_self s rest)
    have hr := ih (fun t ht => h t (List.mem_cons_of_mem s ht))
    simp [collectValid, hr, hs]

theorem findErrorsArray_none_spec (input : JsValue) (ps : List String)
    (h : findErrorsArray input ps = none) :
    ∀ q ∈ ps, (findNestedValueForPath input q).isArr = false := by
  induction ps with
  | nil => intro q hq; cases hq
  | cons p rest ih =>
    intro q hq
    unfold findErrorsArray at h
    rcases List.mem_cons.mp hq with rfl | hq'
    · cases hv : findNestedValueForPath input q <;> rw [hv] at h <;> first
        | rfl
        | exact absurd h (by simp)
    · cases hv : findNestedValueForPath input p <;> rw [hv] at h <;> first
        | exact ih h q hq'
        | exact absurd h (by simp)

theorem isArr_iff (v : JsValue) : v.isArr = true ↔ ∃ xs, v = .arr xs := by
  cases v <;> simp [JsValue.isArr]

theorem findErrorsArray_cons_arr (input : JsValue) (hd : String) (rest : List String)
    (xs : List JsValue) (hv : findNestedValueForPath input hd = .arr xs) :
    findErrorsArray input (hd :: rest) = some (hd, xs) := by
  unfold findErrorsArray; rw [hv]

theorem findErrorsArray_cons_not_arr (input : JsValue) (hd : String) (rest : List String)
    (hv : (findNestedValueForPath input hd).isArr = false) :
    findErrorsArray input (hd :: rest) = findErrorsArray input rest := by
  conv_lhs => unfold findErrorsArray
  cases h : findNestedValueForPath input hd <;> first
    | rfl
    | (rw [h] at hv; simp [JsValue.isArr] at hv)

theorem findErrorsArray_some_spec (input : JsValue) (ps : List String)
    (p : String) (es : List JsValue)
    (h : findErrorsArray input ps = some (p, es)) :
    ∃ l r, ps = l ++ p :: r ∧
      (∀ q ∈ l, (findNestedValueForPath input q).isArr = false) ∧
      findNestedValueForPath input p = .arr es := by
  induction ps with
  | nil => cases h
  | cons hd rest ih =>
    by_cases harr : (findNestedValueForPath input hd).isArr = true
    · obtain ⟨xs, hxs⟩ := (isArr_iff _).mp harr
      rw [findErrorsArray_cons_arr input hd rest xs hxs] at h
      obtain ⟨rfl, rfl⟩ : hd = p ∧ xs = es := by
        have hinj := Option.some.inj h
        exact ⟨congrArg Prod.fst hinj, congrArg Prod.snd hinj⟩
      refine ⟨[], rest, rfl, ?_, hxs⟩
      intro q hq; cases hq
    · simp only [Bool.not_eq_true] at harr
      rw [findErrorsArray_cons_not_arr input hd rest harr] at h
      obtain ⟨l, r, hps, hl, hp⟩ := ih h
      refine ⟨hd :: l, r, by rw [hps]; rfl, ?_, hp⟩
      intro q hq
      rcases List.mem_cons.mp hq with rfl | hq'
      · exact harr
      · exact hl q hq'

theorem pickStringField_cons_hit (objectToParse : JsValue) (hd : String) (rest : List String)
    (s : String) (h : stringishValue (findNestedValueForPath objectToParse hd) = some s) :
    pickStringField objectToParse (hd :: rest) = some (hd, s) := by
  unfold pickStringField; rw [h]

theorem pickStringField_cons_miss (objectToParse : JsValue) (hd : String) (rest : List String)
    (h : stringishValue (findNestedValueForPath objectToParse hd) = none) :
    pickStringField objectToParse (hd :: rest) = pickStringField objectToParse rest := by
  conv_lhs => unfold pickStringField
  rw [h]

theorem pickStringField_some_spec (objectToParse : JsValue) (ps : List String)
    (p s : String) (h : pickStringField objectToParse ps = some (p, s)) :
    ∃ l r, ps = l ++ p :: r ∧
      (∀ q ∈ l, stringishValue (findNestedValueForPath objectToParse q) = none) ∧
      stringishValue (findNestedValueForPath objectToParse p) = some s := by
  induction ps with
  | nil => cases h
  | cons hd rest ih =>
    cases hsv : stringishValue (findNestedValueForPath objectToParse hd) with
    | some s' =>
      rw [pickStringField_cons_hit objectToParse hd rest s' hsv] at h
      obtain ⟨rfl, rfl⟩ : hd = p ∧ s' = s := by
        have hinj := Option.some.inj h
        exact ⟨congrArg Prod.fst hinj, congrArg Prod.snd hinj⟩
      refine ⟨[], rest, rfl, ?_, hsv⟩
      intro q hq; cases hq
    | none =>
      rw [pickStringField_cons_miss objectToParse hd rest hsv] at h
      obtain ⟨l, r, hps, hl, hp⟩ := ih h
      refine ⟨hd :: l, r, by rw [hps]; rfl, ?_, hp⟩
      intro q hq
      rcases List.mem_cons.mp hq with rfl | hq'
      · exact hsv
      · exact hl q hq'

theorem pickStringField_none_spec (objectToParse : JsValue) (ps : List String)
    (h : pickStringField objectToParse ps = none) :
    ∀ q ∈ ps, stringishValue (findNestedValueForPath objectToParse q) = none := by
  induction ps with
  | nil => intro q hq; cases hq
  | cons hd rest ih =>
    intro q hq
    cases hsv : stringishValue (findNestedValueForPath objectToParse hd) with
    | some s' =>
      rw [pickStringField_cons_hit objectToParse hd rest s' hsv] at h
      cases h
    | none =>
      rw [pickStringField_cons_miss objectToParse hd rest hsv] at h
      rcases List.mem_cons.mp hq with rfl | hq'
      · exact hsv
      · exact ih h q hq'

theorem pickNumberField_cons_hit (objectToParse : JsValue) (hd : String) (rest : List String)
    (n : JsNumber) (h : findNestedValueForPath objectToParse hd = .num n)
    (hn : n.isNaNB = false) :
    pickNumberField objectToParse (hd :: rest) = some (hd, n) := by
  unfold pickNumberField; rw [h]; simp [hn]

theorem pickNumberField_cons_miss (objectToParse : JsValue) (hd : String) (rest : List String)
    (h : ∀ n, findNestedValueForPath objectToParse hd = .num n → n.isNaNB = true) :
    pickNumberField objectToParse (hd :: rest) = pickNumberField objectToParse rest := by
  conv_lhs => unfold pickNumberField
  cases hv : findNestedValueForPath objectToParse hd <;> first
    | rfl
    | simp [h _ hv]

theorem pickNumberField_some_spec (objectToParse : JsValue) (ps : List String)
    (p : String) (n : JsNumber) (h : pickNumberField objectToParse ps = some (p, n)) :
    ∃ l r, ps = l ++ p :: r ∧
      (∀ q ∈ l, ∀ m, findNestedValueForPath objectToParse q = .num m → m.isNaNB = true) ∧
      findNestedValueForPath objectToParse p = .num n ∧ n.isNaNB = false := by
  induction ps with
  | nil => cases h
  | cons hd rest ih =>
    by_cases hhit : ∃ m, findNestedValueForPath objectToParse hd = .num m ∧ m.isNaNB = false
    · obtain ⟨m, hm, hmn⟩ := hhit
      rw [pickNumberField_cons_hit objectToParse hd rest m hm hmn] at h
      obtain ⟨rfl, rfl⟩ : hd = p ∧ m = n := by
        have hinj := Option.some.inj h
        exact ⟨congrArg Prod.fst hinj, congrArg Prod.snd hinj⟩
      refine ⟨[], rest, rfl, ?_, hm, hmn⟩
      intro q hq; cases hq
    · push_neg at hhit
      have hmiss : ∀ m, findNestedValueForPath objectToParse hd = .num m → m.isNaNB = true := by
        intro m hm
        have := hhit m hm
        simpa using this
      rw [pickNumberField_cons_miss objectToParse hd rest hmiss] at h
      obtain ⟨l, r, hps, hl, hp⟩ := ih h
      refine ⟨hd :: l, r, by rw [hps]; rfl, ?_, hp⟩
      intro q hq
      rcases List.mem_cons.mp hq with rfl | hq'
      · exact hmiss
      · exact hl q hq'

theorem validateTransformValues_none_iff (values : JsValue) :
    validateTransformValues values = none ↔
      ((values.isUndefined || values.isNull || values.typeofStr != "object") = false ∧
       truthyNonString (values.getField "code") = false ∧
       presentNonNumber (values.getField "numberCode") = false ∧
       presentNaN (values.getField "numberCode") = false ∧
       truthyNonString (values.getField "message") = false ∧
       truthyNonString (values.getField "details") = false ∧
       truthyNonString (values.getField "domain") = false) := by
  unfold validateTransformValues
  constructor
  · intro h
    cases hc1 : (values.isUndefined || values.isNull || values.typeofStr != "object") <;>
      rw [hc1] at h
    case true => simp at h
    cases hc2 : truthyNonString (values.getField "code") <;> rw [hc2] at h
    case true => simp at h
    cases hc3 : presentNonNumber (values.getField "numberCode") <;> rw [hc3] at h
    case true => simp at h
    cases hc4 : presentNaN (values.getField "numberCode") <;> rw [hc4] at h
    case true => simp at h
    cases hc5 : truthyNonString (values.getField "message") <;> rw [hc5] at h
    case true => simp at h
    cases hc6 : truthyNonString (values.getField "details") <;> rw [hc6] at h
    case true => simp at h
    cases hc7 : truthyNonString (values.getField "domain") <;> rw [hc7] at h
    case true => simp at h
    exact ⟨rfl, rfl, rfl, rfl, rfl, rfl, rfl⟩
  · rintro ⟨h1, h2, h3, h4, h5, h6, h7⟩
    rw [h1, h2, h3, h4, h5, h6, h7]
    rfl

theorem buildSummaryFromObject_ok_spec (maybeObject : JsValue) (errorsPath : Option String)
    (ddea : Bool) (options : BuildOptions) (s : ErrorSummary)
    (h : buildSummaryFromObject maybeObject errorsPath ddea options = .ok s) :
    ∃ vr values,
      __processAllValuesFromPaths (resolveCandidateObject maybeObject) options = .ok vr ∧
      values = (match options.transform with
                | some f => f (stateOf vr) (resolveCandidateObject maybeObject)
                | none => stateToJs (stateOf vr)) ∧
      validateTransformValues values = none ∧
      s = mkSummary ddea (resolveCandidateObject maybeObject) errorsPath vr values := by
  unfold buildSummaryFromObject at h
  by_cases h1 : (maybeObject.isUndefined || maybeObject.isNull) = true
  · rw [if_pos h1] at h; simp at h
  · rw [if_neg h1] at h
    simp only at h
    by_cases h2 : ((resolveCandidateObject maybeObject).typeofStr != "object") = true
    · rw [if_pos h2] at h; simp at h
    · rw [if_neg h2] at h
      cases hpv : __processAllValuesFromPaths (resolveCandidateObject maybeObject) options with
      | error e => rw [hpv] at h; simp at h
      | ok vr =>
        rw [hpv] at h
        simp only at h
        cases hvt : validateTransformValues
            (match options.transform with
             | some f => f (stateOf vr) (resolveCandidateObject maybeObject)
             | none => stateToJs (stateOf vr)) with
        | some e => rw [hvt] at h; simp at h
        | none =>
          rw [hvt] at h
          exact ⟨vr, _, rfl, rfl, hvt, (Except.ok.inj h).symm⟩

theorem buildSummaryFromObject_validate_error (maybeObject : JsValue)
    (errorsPath : Option String) (ddea : Bool) (options : BuildOptions)
    (vr : ValuesResult) (e : ErrorResult)
    (h1 : maybeObject.isUndefined = false) (h1' : maybeObject.isNull = false)
    (h2 : (resolveCandidateObject maybeObject).typeofStr = "object")
    (hpv : __processAllValuesFromPaths (resolveCandidateObject maybeObject) options = .ok vr)
    (hvt : validateTransformValues
        (match options.transform with
         | some f => f (stateOf vr) (resolveCandidateObject maybeObject)
         | none => stateToJs (stateOf vr)) = some e) :
    buildSummaryFromObject maybeObject errorsPath ddea options = .error e := by
  unfold buildSummaryFromObject
  rw [if_neg (by simp [h1, h1'])]
  simp only
  rw [if_neg (by simp [h2]), hpv]
  simp only
  rw [hvt]

theorem processErrorObjectResult_error_isSome (summaries : List (Except ErrorResult ErrorSummary))
    (raw : JsValue) (fb : ErrorObject) :
    ((processErrorObjectResult summaries raw fb).error).isSome =
      !(collectValid summaries).1.isEmpty := by
  rcases hcv : collectValid summaries with ⟨valid, notes⟩
  cases valid with
  | nil => simp [processErrorObjectResult, hcv]
  | cons v vs => simp [processErrorObjectResult, hcv]

theorem processErrorObjectResult_none_force (summaries : List (Except ErrorResult ErrorSummary))
    (raw : JsValue) (fb : ErrorObject) (hne : summaries ≠ [])
    (h : (processErrorObjectResult summaries raw fb).error = none) :
    (collectValid summaries).2 ≠ [] ∧
    (processErrorObjectResult summaries raw fb).force =
      fb.setProcessingErrors (collectValid summaries).2 := by
  rcases hcv : collectValid summaries with ⟨valid, notes⟩
  cases valid with
  | cons v vs =>
    exfalso
    rw [processErrorObjectResult, hcv] at h
    simp at h
  | nil =>
    have hlen := collectValid_length summaries
    rw [hcv] at hlen
    simp only [List.length_nil, Nat.zero_add] at hlen
    have hnotes : notes ≠ [] := by
      intro hn
      rw [hn] at hlen
      exact hne (List.eq_nil_of_length_eq_zero hlen.symm)
    have hlpos : notes.length > 0 := List.length_pos.mpr hnotes
    constructor
    · simpa [hcv] using hnotes
    · rw [processErrorObjectResult, hcv]
      simp [hlpos]

theorem processErrorObjectResult_some_force (summaries : List (Except ErrorResult ErrorSummary))
    (raw : JsValue) (fb : ErrorObject) (e : ErrorObject)
    (h : (processErrorObjectResult summaries raw fb).error = some e) :
    (processErrorObjectResult summaries raw fb).force = e := by
  rcases hcv : collectValid summaries with ⟨valid, notes⟩
  cases valid with
  | nil =>
    rw [processErrorObjectResult, hcv] at h ⊢
    simp at h
  | cons v vs =>
    rw [processErrorObjectResult, hcv] at h ⊢
    simp only [List.map_cons] at h ⊢
    exact Option.some.inj h

theorem buildSummariesFromObject_ne_nil (input : JsValue) (options : BuildOptions) :
    buildSummariesFromObject input options ≠ [] := by
  unfold buildSummariesFromObject
  by_cases h1 : (input.isUndefined || input.isNull) = true
  · rw [if_pos h1]; simp
  · rw [if_neg h1]
    by_cases h2 : (input.typeofStr != "object") = true
    · rw [if_pos h2]; simp
    · rw [if_neg h2]
      cases hpe : options.pathToErrors with
      | none => simp
      | some paths =>
        cases hfe : findErrorsArray input paths with
        | none => simp [hfe]
        | some pr =>
          obtain ⟨errorsPath, found⟩ := pr
          cases found with
          | nil => simp [hfe]
          | cons a as => simp [hfe]

theorem processAllValues_ok_spec (objectToParse : JsValue) (options : BuildOptions)
    (vr : ValuesResult)
    (h : __processAllValuesFromPaths objectToParse options = .ok vr) :
    ∃ pc pn pm pd pdm,
      options.pathToCode = some pc ∧ options.pathToNumberCode = some pn ∧
      options.pathToMessage = some pm ∧ options.pathToDetails = some pd ∧
      options.pathToDomain = some pdm ∧
      vr = { codeBeforeTransform := (pickStringField objectToParse pc).map Prod.snd
             codePath := (pickStringField objectToParse pc).map Prod.fst
             numberCodeBeforeTransform := (pickNumberField objectToParse pn).map Prod.snd
             numberCodePath := (pickNumberField objectToParse pn).map Prod.fst
             messageBeforeTransform := (pickStringField objectToParse pm).map Prod.snd
             messagePath := (pickStringField objectToParse pm).map Prod.fst
             detailsBeforeTransform := (pickStringField objectToParse pd).map Prod.snd
             detailsPath := (pickStringField objectToParse pd).map Prod.fst
             domainBeforeTransform := (pickStringField objectToParse pdm).map Prod.snd
             domainPath := (pickStringField objectToParse pdm).map Prod.fst } := by
  unfold __processAllValuesFromPaths at h
  cases hc : options.pathToCode with
  | none => rw [hc] at h; cases h
  | some pc =>
    rw [hc] at h
    cases hn : options.pathToNumberCode with
    | none => rw [hn] at h; cases h
    | some pn =>
      rw [hn] at h
      cases hm : options.pathToMessage with
      | none => rw [hm] at h; cases h
      | some pm =>
        rw [hm] at h
        cases hd : options.pathToDetails with
        | none => rw [hd] at h; cases h
        | some pd =>
          rw [hd] at h
          cases hdm : options.pathToDomain with
          | none => rw [hdm] at h; cases h
          | some pdm =>
            rw [hdm] at h
            exact ⟨pc, pn, pm, pd, pdm, rfl, rfl, rfl, rfl, rfl, (Except.ok.inj h).symm⟩

theorem truthyNonString_false_elim (v : JsValue) (h : truthyNonString v = false)
    (ht : v.truthy = true) : v.isStr = true := by
  unfold truthyNonString at h
  simp [ht] at h
  exact h

theorem presentNumber_ok_elim (v : JsValue) (h3 : presentNonNumber v = false)
    (h4 : presentNaN v = false) (hp : jsPresent v = true) :
    v.isNum = true ∧ v.isNaNV = false := by
  unfold presentNonNumber at h3
  unfold presentNaN at h4
  unfold jsPresent at hp
  simp only [Bool.and_eq_true, Bool.not_eq_true'] at hp
  constructor
  · simp [hp.1, hp.2] at h3
    simpa using h3
  · simp [hp.1, hp.2] at h4
    exact h4

theorem buildSummariesFromObject_obj (input : JsValue) (options : BuildOptions)
    (ps : List String)
    (h1 : input.isUndefined = false) (h1' : input.isNull = false)
    (h2 : input.typeofStr = "object")
    (hpe : options.pathToErrors = some ps) :
    buildSummariesFromObject input options =
      match findErrorsArray input ps with
      | some (errorsPath, found) =>
          (if found.isEmpty then [input] else found).map
            (fun e => buildSummaryFromObject e (some errorsPath) true options)
      | none => [buildSummaryFromObject input none false options] := by
  unfold buildSummariesFromObject
  rw [if_neg (by simp [h1, h1']), if_neg (by simp [h2]), hpe]

/-- Claim C1, counterexample: a summary whose post-transform code is the
EMPTY string (and message a non-empty string) is classified valid and a
record is built from it, so "non-empty" does not hold of the aggregator. -/
theorem claim_C1_counterexample :
    summaryIsValid emptyCodeSummary = true ∧
    entryValue emptyCodeSummary.value.code = .str "" ∧
    ("" : String).length = 0 ∧
    ((processErrorObjectResult [.ok emptyCodeSummary] (.obj [])
        ErrorObject.fallback).error).isSome = true :=
  ⟨rfl, rfl, rfl, rfl⟩

/-- Claim C1, amended: a summary is classified valid, and a record built
from it, exactly when its post-transform code and message are both present
STRINGS (possibly empty); every other entry of the batch contributes one
processing note instead. -/
theorem claim_C1_amended (summaries : List (Except ErrorResult ErrorSummary)) :
    (collectValid summaries).1 = (summaries.filterMap summaryOk).filter summaryIsValid ∧
    (collectValid summaries).1.length + (collectValid summaries).2.length = summaries.length ∧
    (∀ s : ErrorSummary, summaryIsValid s = true ↔
       ((∃ c, entryValue s.value.code = .str c) ∧
        (∃ m, entryValue s.value.message = .str m))) ∧
    (∀ raw fb, ((processErrorObjectResult summaries raw fb).error).isSome =
       !(collectValid summaries).1.isEmpty) := by
  refine ⟨collectValid_fst summaries, collectValid_length summaries, ?_, ?_⟩
  · intro s
    cases hc : entryValue s.value.code <;> cases hm : entryValue s.value.message <;>
      simp [summaryIsValid, hc, hm, JsValue.isUndefined, JsValue.isNull, JsValue.isStr]
  · intro raw fb
    exact processErrorObjectResult_error_isSome summaries raw fb

/-- Claim C2, counterexample: with collection paths `[a, b]`, where `a`
holds an EMPTY array and `b` a non-empty one, the detection stops at `a`
(an empty array is truthy), so the payload itself becomes the sole
candidate and no record is produced — though the claim demands the
collection at `b`. -/
theorem claim_C2_counterexample :
    findNestedValueForPath emptyFirstPayload "b" = .arr [cand1] ∧
    findNestedValueForPath emptyFirstPayload "a" = .arr [] ∧
    findErrorsArray emptyFirstPayload ["a", "b"] = some ("a", []) ∧
    buildSummariesFromObject emptyFirstPayload emptyFirstOpts =
      [buildSummaryFromObject emptyFirstPayload (some "a") true emptyFirstOpts] ∧
    (fromPayload emptyFirstPayload (some emptyFirstOpts)).error = none :=
  ⟨rfl, rfl, rfl, rfl, rfl⟩

/-- Claim C2, amended: the collection paths are tried in order and the FIRST
path whose resolved value is an array — empty or not — stops the search;
the elements of a non-empty accepted array become the candidates in array
order, while an empty accepted array, or no array at all, leaves the payload
itself as the sole candidate. -/
theorem claim_C2_amended (input : JsValue) (options : BuildOptions) (ps : List String)
    (hpe : options.pathToErrors = some ps)
    (h1 : input.isUndefined = false) (h1' : input.isNull = false)
    (h2 : input.typeofStr = "object") :
    (findErrorsArray input ps = none →
       (∀ q ∈ ps, (findNestedValueForPath input q).isArr = false) ∧
       buildSummariesFromObject input options =
         [buildSummaryFromObject input none false options]) ∧
    (∀ p es, findErrorsArray input ps = some (p, es) →
       (∃ l r, ps = l ++ p :: r ∧
          (∀ q ∈ l, (findNestedValueForPath input q).isArr = false) ∧
          findNestedValueForPath input p = .arr es) ∧
       buildSummariesFromObject input options =
         (if es.isEmpty then [input] else es).map
           (fun e => buildSummaryFromObject e (some p) true options)) := by
  constructor
  · intro hfe
    refine ⟨findErrorsArray_none_spec input ps hfe, ?_⟩
    rw [buildSummariesFromObject_obj input options ps h1 h1' h2 hpe, hfe]
  · intro p es hfe
    refine ⟨findErrorsArray_some_spec input ps p es hfe, ?_⟩
    rw [buildSummariesFromObject_obj input options ps h1 h1' h2 hpe, hfe]

/-- Claim C2, witness: the amended theorem evaluated on the concrete
empty-first payload. -/
theorem claim_C2_witness :
    buildSummariesFromObject emptyFirstPayload emptyFirstOpts =
      [buildSummaryFromObject emptyFirstPayload (some "a") true emptyFirstOpts] := by
  have h :=
    (claim_C2_amended emptyFirstPayload emptyFirstOpts ["a", "b"] rfl rfl rfl rfl).2 "a" [] rfl
  simpa using h.2

/-- Claim C4, counterexample: on `\x7ba: [\x7bb: "B"\x7d]\x7d` the path `a.0.b`
resolves to `"B"` while `a[0].b` resolves to `undefined`, so the two syntaxes
are not equivalent. -/
theorem claim_C4_counterexample :
    findNestedValueForPath bracketPathVal "a.0.b" = .str "B" ∧
    findNestedValueForPath bracketPathVal "a[0].b" = .undefined ∧
    JsValue.undefined ≠ JsValue.str "B" :=
  ⟨rfl, rfl, fun h => JsValue.noConfusion h⟩

/-- Claim C4, amended: only the FIRST occurrence of each bracket character
is removed and no separator is inserted, so `a[0].b` normalizes to `a0.b`
(one segment `a0`, not an index access) and resolves identically to it for
every value. -/
theorem claim_C4_amended :
    removeFirstChar (removeFirstChar "a[0].b" '[') ']' = "a0.b" ∧
    ∀ v : JsValue, findNestedValueForPath v "a[0].b" = findNestedValueForPath v "a0.b" :=
  ⟨rfl, fun _ => rfl⟩

/-- Claim C5: a string candidate that fails to JSON-decode produces the
`buildSummaryIsNotAnObject` failure sentinel, NOT the synthetic
`\x7bcode: "unknown", message: <string>\x7d` candidate the claim (and the
source's dead fallback branch) intend; a decode that succeeds with an
object is used as the candidate. -/
theorem claim_C5_code_bug :
    resolveCandidateObject (.str "\x7b\"code\":\"C\"\x7d") = .obj [("code", .str "C")] ∧
    jsonParse "oops" = none ∧
    buildSummaryFromObject (.str "oops") none false plainBuildOptions =
      .error .buildSummaryIsNotAnObject :=
  ⟨rfl, rfl, rfl⟩

/-- Claim C6, counterexample: `pathToCode = [code, errorCode]` on a
candidate where `code` holds the number 42 (present and non-null): the later
path `errorCode` wins, so "the first path yielding a non-null resolved value
is accepted" is false. -/
theorem claim_C6_counterexample :
    findNestedValueForPath numberCodeFirstObj "code" = .num (.finite 42) ∧
    jsPresent (.num (.finite 42)) = true ∧
    pickStringField numberCodeFirstObj ["code", "errorCode"] = some ("errorCode", "X") ∧
    ("errorCode" : String) ≠ "code" :=
  ⟨rfl, rfl, rfl, by decide⟩

/-- Claim C8, counterexample: a candidate with `numberCode: Infinity`
produces a pre-transform field state whose `numberCode` is `Infinity`,
which is not finite — only NaN is excluded by the extraction. -/
theorem claim_C8_counterexample :
    __processAllValuesFromPaths infinityPayload infinityOpts = .ok infinityVR ∧
    infinityVR.numberCodeBeforeTransform = some JsNumber.posInf ∧
    JsNumber.posInf.isFiniteB = false :=
  ⟨rfl, rfl, rfl⟩

/-- Claim C10, counterexample: for the falsy value 0 the separator-only path
`.` resolves to `undefined`, not to the value itself. -/
theorem claim_C10_counterexample :
    findNestedValueForPath (.num (.finite 0)) "." = .undefined ∧
    JsValue.undefined ≠ JsValue.num (.finite 0) :=
  ⟨rfl, fun h => JsValue.noConfusion h⟩

/-- Claim C10, amended: for every TRUTHY value a separator-only path
resolves to the value itself (empty segments are skipped), while every falsy
value resolves to `undefined`; skipping empty segments makes `a..b`
equivalent to `a.b` for all values. -/
theorem claim_C10_amended (v : JsValue) :
    (v.truthy = true → findNestedValueForPath v "." = v) ∧
    (v.truthy = false → findNestedValueForPath v "." = .undefined) ∧
    findNestedValueForPath v "a..b" = findNestedValueForPath v "a.b" := by
  refine ⟨?_, ?_, rfl⟩
  · intro h
    unfold findNestedValueForPath
    simp [h]
    rfl
  · intro h
    unfold findNestedValueForPath
    simp [h]

/-- Claim C10, witness: the amended theorem evaluated on a truthy object. -/
theorem claim_C10_witness :
    findNestedValueForPath (.obj [("k", .str "v")]) "." = .obj [("k", .str "v")] :=
  (claim_C10_amended _).1 rfl

/-- Claim C6, amended: for each field the configured path list is searched
in order and the FIRST path whose resolved value is a string (kept as-is) or
an array/object (kept as its JSON-serialized string) wins; non-null values
of any other type (numbers, booleans) are skipped, so a later path can win
over an earlier non-null value.  `numberCode` instead takes the first
resolved non-NaN number.  `__processAllValuesFromPaths` wires each of the
five fields to this search over its own configured list. -/
theorem claim_C6_amended (objectToParse : JsValue) :
    (∀ s, stringishValue (.str s) = some s) ∧
    (∀ xs, stringishValue (.arr xs) = some ((stringifyVal (.arr xs)).getD "")) ∧
    (∀ fs, stringishValue (.obj fs) = some ((stringifyVal (.obj fs)).getD "")) ∧
    (∀ n, stringishValue (.num n) = none) ∧
    (∀ b, stringishValue (.bool b) = none) ∧
    (∀ ps p s, pickStringField objectToParse ps = some (p, s) →
       ∃ l r, ps = l ++ p :: r ∧
         (∀ q ∈ l, stringishValue (findNestedValueForPath objectToParse q) = none) ∧
         stringishValue (findNestedValueForPath objectToParse p) = some s) ∧
    (∀ ps p n, pickNumberField objectToParse ps = some (p, n) →
       ∃ l r, ps = l ++ p :: r ∧
         (∀ q ∈ l, ∀ m, findNestedValueForPath objectToParse q = .num m → m.isNaNB = true) ∧
         findNestedValueForPath objectToParse p = .num n ∧ n.isNaNB = false) ∧
    (∀ options vr, __processAllValuesFromPaths objectToParse options = .ok vr →
       (∀ pc, options.pathToCode = some pc →
          vr.codePath = (pickStringField objectToParse pc).map Prod.fst ∧
          vr.codeBeforeTransform = (pickStringField objectToParse pc).map Prod.snd) ∧
       (∀ pm, options.pathToMessage = some pm →
          vr.messagePath = (pickStringField objectToParse pm).map Prod.fst ∧
          vr.messageBeforeTransform = (pickStringField objectToParse pm).map Prod.snd) ∧
       (∀ pd, options.pathToDetails = some pd →
          vr.detailsPath = (pickStringField objectToParse pd).map Prod.fst ∧
          vr.detailsBeforeTransform = (pickStringField objectToParse pd).map Prod.snd) ∧
       (∀ pdm, options.pathToDomain = some pdm →
          vr.domainPath = (pickStringField objectToParse pdm).map Prod.fst ∧
          vr.domainBeforeTransform = (pickStringField objectToParse pdm).map Prod.snd) ∧
       (∀ pn, options.pathToNumberCode = some pn →
          vr.numberCodePath = (pickNumberField objectToParse pn).map Prod.fst ∧
          vr.numberCodeBeforeTransform = (pickNumberField objectToParse pn).map Prod.snd)) := by
  refine ⟨fun s => rfl, fun xs => rfl, fun fs => rfl, fun n => rfl, fun b => rfl, ?_, ?_, ?_⟩
  · intro ps p s h
    exact pickStringField_some_spec objectToParse ps p s h
  · intro ps p n h
    exact pickNumberField_some_spec objectToParse ps p n h
  · intro options vr h
    obtain ⟨pc, pn, pm, pd, pdm, hc, hn, hm, hd, hdm, hvr⟩ :=
      processAllValues_ok_spec objectToParse options vr h
    subst hvr
    refine ⟨?_, ?_, ?_, ?_, ?_⟩
    · intro pc' hc'
      rw [hc] at hc'
      rw [← Option.some.inj hc']
      exact ⟨rfl, rfl⟩
    · intro pm' hm'
      rw [hm] at hm'
      rw [← Option.some.inj hm']
      exact ⟨rfl, rfl⟩
    · intro pd' hd'
      rw [hd] at hd'
      rw [← Option.some.inj hd']
      exact ⟨rfl, rfl⟩
    · intro pdm' hdm'
      rw [hdm] at hdm'
      rw [← Option.some.inj hdm']
      exact ⟨rfl, rfl⟩
    · intro pn' hn'
      rw [hn] at hn'
      rw [← Option.some.inj hn']
      exact ⟨rfl, rfl⟩

/-- Claim C6, witness: the path-order characterization evaluated on the
candidate with a numeric `code` and a string `errorCode`. -/
theorem claim_C6_witness :
    ∃ l r, (["code", "errorCode"] : List String) = l ++ "errorCode" :: r ∧
      (∀ q ∈ l, stringishValue (findNestedValueForPath numberCodeFirstObj q) = none) ∧
      stringishValue (findNestedValueForPath numberCodeFirstObj "errorCode") = some "X" :=
  (claim_C6_amended numberCodeFirstObj).2.2.2.2.2.1 ["code", "errorCode"] "errorCode" "X" rfl

/-- Claim C7, counterexample: a transform returning `code: 0` (present but
not a string, yet FALSY) escapes the validation — a summary is produced,
carrying the number 0 as its post-transform code, instead of the
`transformCodeResultIsNotString` sentinel the claim demands. -/
theorem claim_C7_counterexample :
    buildSummaryFromObject cand1 none false falsyCodeOpts = .ok falsyCodeSummary ∧
    entryValue falsyCodeSummary.value.code = .num (.finite 0) ∧
    (JsValue.num (.finite 0)).isStr = false ∧
    jsPresent (.num (.finite 0)) = true :=
  ⟨rfl, rfl, rfl, rfl⟩

/-- Claim C7, amended: the transform output is validated field-by-field, but
only TRUTHY non-string values of `code`, `message`, `details`, `domain` are
rejected (falsy non-strings pass), and `numberCode` is rejected when present
and not a number, or NaN (infinities pass); each rejection yields its
specific sentinel and no summary. -/
theorem claim_C7_amended :
    (∀ values, validateTransformValues values = none ↔
      ((values.isUndefined || values.isNull || values.typeofStr != "object") = false ∧
       truthyNonString (values.getField "code") = false ∧
       presentNonNumber (values.getField "numberCode") = false ∧
       presentNaN (values.getField "numberCode") = false ∧
       truthyNonString (values.getField "message") = false ∧
       truthyNonString (values.getField "details") = false ∧
       truthyNonString (values.getField "domain") = false)) ∧
    (∀ maybeObject errorsPath ddea options vr e,
       maybeObject.isUndefined = false → maybeObject.isNull = false →
       (resolveCandidateObject maybeObject).typeofStr = "object" →
       __processAllValuesFromPaths (resolveCandidateObject maybeObject) options = .ok vr →
       validateTransformValues
           (match options.transform with
            | some f => f (stateOf vr) (resolveCandidateObject maybeObject)
            | none => stateToJs (stateOf vr)) = some e →
       buildSummaryFromObject maybeObject errorsPath ddea options = .error e) := by
  refine ⟨validateTransformValues_none_iff, ?_⟩
  intro maybeObject errorsPath ddea options vr e h1 h1' h2 hpv hvt
  exact buildSummaryFromObject_validate_error maybeObject errorsPath ddea options vr e
    h1 h1' h2 hpv hvt

/-- Claim C7, witness: a transform returning a truthy non-string code on a
well-formed candidate is rejected with the `code` sentinel. -/
theorem claim_C7_witness :
    buildSummaryFromObject cand1 none false truthyBadCodeOpts =
      .error .transformCodeResultIsNotString :=
  claim_C7_amended.2 cand1 none false truthyBadCodeOpts
    { codeBeforeTransform := some "C1"
      codePath := some "code"
      numberCodeBeforeTransform := none
      numberCodePath := none
      messageBeforeTransform := some "m1"
      messagePath := some "message"
      detailsBeforeTransform := none
      detailsPath := none
      domainBeforeTransform := none
      domainPath := none }
    .transformCodeResultIsNotString rfl rfl rfl rfl rfl

theorem entry_value_string_ok (cond : Bool) (p : Option String) (bt v : JsValue)
    (hval : truthyNonString v = false) :
    (entryValue (if cond then some ⟨p, bt, v⟩ else none)).truthy = true →
    (entryValue (if cond then some ⟨p, bt, v⟩ else none)).isStr = true := by
  by_cases hc : cond = true
  · rw [if_pos hc]
    exact fun ht => truthyNonString_false_elim v hval ht
  · rw [if_neg hc]
    intro ht
    simp [entryValue, JsValue.truthy] at ht

theorem entry_value_number_ok (cond : Bool) (p : Option String) (bt v : JsValue)
    (h3 : presentNonNumber v = false) (h4 : presentNaN v = false) :
    jsPresent (entryValue (if cond then some ⟨p, bt, v⟩ else none)) = true →
    (entryValue (if cond then some ⟨p, bt, v⟩ else none)).isNum = true ∧
    (entryValue (if cond then some ⟨p, bt, v⟩ else none)).isNaNV = false := by
  by_cases hc : cond = true
  · rw [if_pos hc]
    exact presentNumber_ok_elim v h3 h4
  · rw [if_neg hc]
    intro hp
    simp [entryValue, jsPresent, JsValue.isUndefined] at hp

/-- Claim C8, amended: in the pre-transform state `numberCode` is a non-NaN
number (not necessarily finite), and in every summary the engine produces,
the stored post-transform `numberCode` is a non-NaN number whenever present,
and each of the other four stored values is a string whenever TRUTHY (a
falsy non-string transform output can be stored). -/
theorem claim_C8_amended :
    (∀ objectToParse ps p n, pickNumberField objectToParse ps = some (p, n) →
       n.isNaNB = false) ∧
    (∀ maybeObject errorsPath ddea options s,
       buildSummaryFromObject maybeObject errorsPath ddea options = .ok s →
       (jsPresent (entryValue s.value.numberCode) = true →
          (entryValue s.value.numberCode).isNum = true ∧
          (entryValue s.value.numberCode).isNaNV = false) ∧
       ((entryValue s.value.code).truthy = true → (entryValue s.value.code).isStr = true) ∧
       ((entryValue s.value.message).truthy = true →
          (entryValue s.value.message).isStr = true) ∧
       ((entryValue s.value.details).truthy = true →
          (entryValue s.value.details).isStr = true) ∧
       ((entryValue s.value.domain).truthy = true →
          (entryValue s.value.domain).isStr = true)) := by
  constructor
  · intro objectToParse ps p n h
    obtain ⟨l, r, _, _, _, hn⟩ := pickNumberField_some_spec objectToParse ps p n h
    exact hn
  · intro maybeObject errorsPath ddea options s hok
    obtain ⟨vr, values, hpv, hvdef, hvt, hs⟩ :=
      buildSummaryFromObject_ok_spec maybeObject errorsPath ddea options s hok
    obtain ⟨_, hcode, hnum, hnan, hmsg, hdet, hdom⟩ :=
      (validateTransformValues_none_iff values).mp hvt
    subst hs
    simp only [mkSummary]
    exact ⟨entry_value_number_ok _ _ _ _ hnum hnan,
           entry_value_string_ok _ _ _ _ hcode,
           entry_value_string_ok _ _ _ _ hmsg,
           entry_value_string_ok _ _ _ _ hdet,
           entry_value_string_ok _ _ _ _ hdom⟩

/-- Claim C8, witness: the post-transform invariant evaluated on a summary
with a finite `numberCode`. -/
theorem claim_C8_witness :
    (entryValue finiteNumSummary.value.numberCode).isNum = true ∧
    (entryValue finiteNumSummary.value.numberCode).isNaNV = false :=
  (claim_C8_amended.2 finiteNumObj none false finiteNumOpts finiteNumSummary rfl).1 rfl

/-- Claim C9: for every payload and options value the entry point returns a
structurally valid result (the model is total, so no exception can escape):
when no valid record exists the `error` field is `none` and `force` is the
fallback record carrying a non-empty list of accumulated processing notes;
when a record exists, `force` is that record. -/
theorem claim_C9_confirmed (value : JsValue) (withOptions : Option BuildOptions) :
    ((fromPayload value withOptions).error = none →
       ∃ notes, notes ≠ [] ∧
         (fromPayload value withOptions).force =
           (ErrorObject.fallback.setRaw (some value)).setProcessingErrors notes) ∧
    (∀ e, (fromPayload value withOptions).error = some e →
       (fromPayload value withOptions).force = e) := by
  cases hchk : checkInputForInitialObject value
      (mergeOptions DEFAULT_BUILD_OPTIONS withOptions) with
  | some cf =>
    have hfp : fromPayload value withOptions =
        { error := none
          force := (ErrorObject.fallback.setRaw (some value)).setProcessingErrors
            [⟨cf, none⟩] } := by
      simp only [fromPayload, hchk]
    rw [hfp]
    constructor
    · intro _
      exact ⟨[⟨cf, none⟩], by simp, rfl⟩
    · intro e he
      simp at he
  | none =>
    have hfp : fromPayload value withOptions =
        processErrorObjectResult
          (if (mergeOptions DEFAULT_BUILD_OPTIONS withOptions).pathToErrors.isSome
           then buildSummariesFromObject value (mergeOptions DEFAULT_BUILD_OPTIONS withOptions)
           else [buildSummaryFromObject value none false
             (mergeOptions DEFAULT_BUILD_OPTIONS withOptions)])
          value (ErrorObject.fallback.setRaw (some value)) := by
      simp only [fromPayload, hchk]
    rw [hfp]
    have hne : (if (mergeOptions DEFAULT_BUILD_OPTIONS withOptions).pathToErrors.isSome
        then buildSummariesFromObject value (mergeOptions DEFAULT_BUILD_OPTIONS withOptions)
        else [buildSummaryFromObject value none false
          (mergeOptions DEFAULT_BUILD_OPTIONS withOptions)]) ≠ [] := by
      split
      · exact buildSummariesFromObject_ne_nil _ _
      · simp
    constructor
    · intro h
      obtain ⟨hn, hf⟩ := processErrorObjectResult_none_force _ value _ hne h
      exact ⟨_, hn, hf⟩
    · intro e he
      exact processErrorObjectResult_some_force _ value _ e he

/-- Claim C9, witness: on a null payload, the result carries the diagnostic
fallback with a non-empty note list. -/
theorem claim_C9_witness :
    ∃ notes, notes ≠ [] ∧
      (fromPayload JsValue.null none).force =
        (ErrorObject.fallback.setRaw (some JsValue.null)).setProcessingErrors notes :=
  (claim_C9_confirmed JsValue.null none).1 rfl

/-- Claim C3: when the configured collection path resolves to a non-empty
array whose candidates all yield valid summaries, the call returns exactly
one primary record built from the first element's summary, with the records
of the remaining elements attached, in array order, as the secondary-errors
list, and the raw payload attached to the primary (which is also the forced
record). -/
theorem claim_C3_confirmed (payload : JsValue) (withOptions : Option BuildOptions)
    (ps : List String) (p : String) (c : JsValue) (cs : List JsValue)
    (s : ErrorSummary) (rest : List ErrorSummary)
    (hpe : (mergeOptions DEFAULT_BUILD_OPTIONS withOptions).pathToErrors = some ps)
    (hchk : checkInputForInitialObject payload
      (mergeOptions DEFAULT_BUILD_OPTIONS withOptions) = none)
    (hfe : findErrorsArray payload ps = some (p, c :: cs))
    (hsum : (c :: cs).map (fun e => buildSummaryFromObject e (some p) true
        (mergeOptions DEFAULT_BUILD_OPTIONS withOptions)) = (s :: rest).map Except.ok)
    (hvalid : ∀ t ∈ s :: rest, summaryIsValid t = true) :
    fromPayload payload withOptions =
      { error := some (((mkErrorObject s []).setNextErrors
            (if (rest.map (fun t => mkErrorObject t [])).length > 0
             then some (rest.map (fun t => mkErrorObject t [])) else none)).setRaw
            (some payload))
        force := ((mkErrorObject s []).setNextErrors
            (if (rest.map (fun t => mkErrorObject t [])).length > 0
             then some (rest.map (fun t => mkErrorObject t [])) else none)).setRaw
            (some payload) } := by
  obtain ⟨hu, hn, ht⟩ := checkInput_none_shape payload _ hchk
  have hfp : fromPayload payload withOptions =
      processErrorObjectResult
        (if (mergeOptions DEFAULT_BUILD_OPTIONS withOptions).pathToErrors.isSome
         then buildSummariesFromObject payload (mergeOptions DEFAULT_BUILD_OPTIONS withOptions)
         else [buildSummaryFromObject payload none false
           (mergeOptions DEFAULT_BUILD_OPTIONS withOptions)])
        payload (ErrorObject.fallback.setRaw (some payload)) := by
    simp only [fromPayload, hchk]
  rw [hfp, if_pos (by rw [hpe]; rfl)]
  rw [buildSummariesFromObject_obj payload _ ps hu hn ht hpe, hfe]
  simp only [List.isEmpty_cons, Bool.false_eq_true, if_false]
  rw [hsum]
  rw [processErrorObjectResult, collectValid_map_ok (s :: rest) hvalid]
  simp only [List.map_cons]

/-- Claim C3, witness: the Scenario-B payload with two collection elements
yields the first element's record as primary with the second chained, and
the raw payload attached. -/
theorem claim_C3_witness :
    fromPayload scenarioBPayload (some scenarioBOpts) =
      { error := some (((mkErrorObject scenarioBSummary1 []).setNextErrors
            (some [mkErrorObject scenarioBSummary2 []])).setRaw (some scenarioBPayload))
        force := ((mkErrorObject scenarioBSummary1 []).setNextErrors
            (some [mkErrorObject scenarioBSummary2 []])).setRaw (some scenarioBPayload) } := by
  have h := claim_C3_confirmed scenarioBPayload (some scenarioBOpts) ["errors"] "errors"
    cand1 [cand2] scenarioBSummary1 [scenarioBSummary2] rfl rfl rfl rfl
    (by
      intro t ht
      simp only [List.mem_cons, List.mem_singleton, List.not_mem_nil, or_false] at ht
      rcases ht with rfl | rfl
      · rfl
      · rfl)
  simpa using h
